import Mathlib

/-!
Shallow embedding of the mock-server request-routing gateway.

Each definition is translated from the corresponding Rust item:
- `src/route.rs`: `Route::new`, `Precedence`, `Router::new`, `Router::try_handle`
- `src/handler/mod.rs`: `Handler::handle`
- `src/handler/json.rs`: `JsonHandler::handle_patch`, `json_request`, `Sync::run`
- `src/handler/fs.rs`: `sanitize_path`, `DirHandler::handle`
- `src/handler/proxy.rs`: `append_path`, `ProxyHandler::get_uri`

Strings are modelled by `String`/`List Char`; the regexes generated by the
pattern compiler are modelled denotationally (segment by segment, following
the regex fragments the compiler emits); third-party crate calls
(`serde_json` pointers, `json_patch`, `regex`) are modelled from their
documented semantics, noted at each definition.
-/

namespace MockServer

/-! ## Pattern compiler (`src/route.rs`, `Route::new`)

The allowed character class is the Rust regex class
`[\w\-\.~%!$&'()*+,;=:@]` (with `\w` restricted to its ASCII fragment
`[A-Za-z0-9_]`; every input in this development is ASCII). -/

/-- Membership in the character class `[\w\-\.~%!$&'()*+,;=:@]` used by both
wildcard fragments and the validation regex in `Route::new`. -/
def pathChar (c : Char) : Bool :=
  c.isAlpha || c.isDigit || c == '_' ||
    [ '-', '.', '~', '%', '!', '$', '&', '\'', '(', ')', '*', '+', ',', ';', '=', ':', '@'
    ].contains c

/-- Splits a character list at every occurrence of `sep`, keeping empty
pieces; models Rust's `str::split` (note `"".split sep` yields one empty
piece, and a leading/trailing separator yields a leading/trailing empty
piece). -/
def splitOnChar (sep : Char) : List Char → List (List Char)
  | [] => [[]]
  | c :: cs =>
    if c == sep then [] :: splitOnChar sep cs
    else
      match splitOnChar sep cs with
      | r :: rs => (c :: r) :: rs
      | [] => [[c]]

/-- Models `Regex::new(r"[\w\-\.~%!$&'()*+,;=:@]*").is_match(segment)`.
The pattern is **unanchored**, so `is_match` holds when any substring
(a contiguous, possibly empty slice) of the haystack consists solely of
class characters. -/
def regexIsMatchStar (cs : List Char) : Bool :=
  decide (∃ t ∈ cs.tails, ∃ p ∈ t.inits, p.all pathChar = true)

/-- Specificity score of a compiled route (`struct Precedence` in
`src/route.rs`); the Rust `derive(PartialOrd, Ord)` compares the fields
lexicographically in declaration order, `multi_wildcards` first. -/
structure Precedence where
  multi_wildcards : Nat
  wildcards : Nat
deriving DecidableEq, Repr

/-- Lexicographic (strict) order on `Precedence`, as derived by Rust's
`#[derive(PartialOrd, Ord)]` with `multi_wildcards` most significant. -/
def precLt (p q : Precedence) : Bool :=
  decide (p.multi_wildcards < q.multi_wildcards ∨
    (p.multi_wildcards = q.multi_wildcards ∧ p.wildcards < q.wildcards))

/-- Lexicographic (non-strict) order on `Precedence`. -/
def precLe (p q : Precedence) : Bool :=
  decide (p.multi_wildcards < q.multi_wildcards ∨
    (p.multi_wildcards = q.multi_wildcards ∧ p.wildcards ≤ q.wildcards))

/-- One compiled segment of a route pattern. Each constructor denotes the
regex fragment `Route::new` pushes for that segment: `lit s` denotes
`/` followed by the escaped literal, `wild` denotes `/([class]*)`, and
`multi` denotes `/([class]*(?:/[class]*)*)`. -/
inductive RSeg where
  | lit (s : List Char)
  | wild
  | multi
deriving DecidableEq, Repr

/-- A compiled route: specificity score plus the segment sequence denoting
the generated anchored regex `^ fragments… /?$`. -/
structure Route where
  precedence : Precedence
  segs : List RSeg
deriving DecidableEq, Repr

instance : Inhabited Route := ⟨⟨⟨0, 0⟩, []⟩⟩

/-- Non-empty segments of the pattern string: `path.split('/')` with empty
segments skipped, as in the `for segment in path.split('/')` loop. -/
def splitSegments (path : String) : List (List Char) :=
  (splitOnChar '/' path.data).filter (fun s => !s.isEmpty)

/-- The body of the compilation loop in `Route::new`: validates each segment
with the (unanchored) class regex, counts wildcards into the precedence and
emits the corresponding regex fragment. -/
def compileLoop : List (List Char) → Except String (Precedence × List RSeg)
  | [] => .ok (⟨0, 0⟩, [])
  | seg :: rest =>
    if !regexIsMatchStar seg then
      .error "invalid character in path"
    else
      match compileLoop rest with
      | .error e => .error e
      | .ok (p, segs) =>
        if seg = ['*'] then
          .ok ({ p with wildcards := p.wildcards + 1 }, .wild :: segs)
        else if seg = ['*', '*'] then
          .ok ({ p with multi_wildcards := p.multi_wildcards + 1 }, .multi :: segs)
        else
          .ok (p, .lit seg :: segs)

/-- Models `Route::new(path)`. -/
def routeNew (path : String) : Except String Route :=
  match compileLoop (splitSegments path) with
  | .error e => .error e
  | .ok (p, segs) => .ok { precedence := p, segs := segs }

/-! ## Matching semantics of the generated regex

`Route::new` emits `^ f₁ … fₙ /?$` where every fragment starts with `/` and
whose groups match runs of class characters (which exclude `/`).  A path
therefore matches iff it starts with `/` (or the pattern is empty and the
path is empty), and its `/`-separated segments line up with the fragments;
the optional trailing `/` lets a final empty path segment be dropped. -/

/-- Matches compiled segments against the `/`-separated pieces of the path
(everything after the leading `/`). `lit` requires the verbatim (escaped)
literal; `wild` — the group `([class]*)` — one piece of class characters;
`multi` — the group `([class]*(?:/[class]*)*)` — one or more such pieces. -/
def segsMatch : List RSeg → List (List Char) → Bool
  | [], ps => ps.isEmpty
  | .lit l :: rs, p :: ps => l == p && segsMatch rs ps
  | .wild :: rs, p :: ps => p.all pathChar && segsMatch rs ps
  | .multi :: rs, p :: ps =>
    p.all pathChar && (segsMatch rs ps || segsMatch (.multi :: rs) ps)
  | _ :: _, [] => false

/-- Models matching the compiled anchored regex of `route` against a request
path (what `RegexSet::matches` / `Regex::is_match` decide for the generated
`^…/?$` pattern). -/
def routeMatches (route : Route) (path : String) : Bool :=
  match splitOnChar '/' path.data with
  | [] => false
  | first :: body =>
    first.isEmpty &&
      (segsMatch route.segs body ||
        (match body.getLast? with
         | some [] => segsMatch route.segs body.dropLast
         | _ => false))

/-- Compiles `pattern` and matches `path` against it (false when compilation
fails). -/
def patternMatches (pattern path : String) : Bool :=
  match routeNew pattern with
  | .ok r => routeMatches r path
  | .error _ => false

/-! ## Requests, responses, and the Router (`src/route.rs`) -/

/-- The parts of an `http::Request` the routing core inspects: the method
and the URI path (never carrying a query). -/
structure Request where
  method : String
  path : String
deriving DecidableEq, Repr

/-- An `http::Response`: status code, header map (modelled as an association
list) and body bytes. -/
structure Response where
  status : Nat
  headers : List (String × String)
  body : String
deriving DecidableEq, Repr

/-- Models `response::from_status` / `error::from_status`: the given status
with an empty header map and empty body. -/
def fromStatus (status : Nat) : Response :=
  { status := status, headers := [], body := "" }

/-- The result type of `Handler::handle`: a final response, or a decline
handing back the request together with a fallback response. -/
abbrev HandlerResult := Except (Request × Response) Response

/-- A handler as the Router consumes it: `Handler::handle` as a function. -/
abbrev HandlerFn := Request → HandlerResult

/-- A configured route as `Router::new` receives it: the compiled pattern
plus the handler built from the route. -/
structure ConfigRoute where
  route : Route
  handler : HandlerFn

/-- Models `config.routes.sort_by_key(|route| route.route.precedence)` in
`Router::new`.  Rust's `sort_by_key` is a stable sort ascending by key;
any two stable sorts under the same total preorder agree, so it is modelled
by `List.mergeSort` (Lean's verified stable sort) under `precLe`. -/
def routerNew (routes : List ConfigRoute) : List ConfigRoute :=
  routes.mergeSort (fun a b => precLe a.route.precedence b.route.precedence)

/-- The Router's state after construction: the pattern list (the
`RegexSet`) and the handler list, both in sorted order. -/
structure MRouter where
  patterns : List Route
  handlers : List HandlerFn

/-- Models `Router::new`: sort the routes, then lay the patterns into the
`RegexSet` and build the handlers, index-aligned. -/
def routerOf (routes : List ConfigRoute) : MRouter :=
  let sorted := routerNew routes
  { patterns := sorted.map (·.route), handlers := sorted.map (·.handler) }

/-- Models `self.regex_set.matches(path)`: the ascending list of indices of
patterns that match the path. -/
def regexSetMatches (patterns : List Route) (path : String) : List Nat :=
  (List.range patterns.length).filter fun i => routeMatches patterns[i]! path

/-- Index lookup into the handler list (`self.handlers[match_index]`; the
`RegexSet` only yields in-bounds indices, so the default is never used). -/
def handlerAt (handlers : List HandlerFn) (i : Nat) : HandlerFn :=
  handlers.getD i (fun request => .error (request, fromStatus 500))

/-- The candidate loop in `Router::try_handle`: each matching handler either
returns a final response (returned immediately) or declines, handing back
the request and a fallback response that replaces the one kept so far. -/
def runCandidates (handlers : List HandlerFn) :
    List Nat → Request → Response → Response
  | [], _, response => response
  | i :: rest, request, _ =>
    match handlerAt handlers i request with
    | .ok final => final
    | .error (request', fallback) =>
      runCandidates handlers rest request' fallback

/-- Models `Router::try_handle`: start from a 404 response; if no pattern
matches, return it (logging the unmatched path); otherwise run the
candidate loop. -/
def tryHandle (router : MRouter) (request : Request) : Response :=
  let response := fromStatus 404
  let ms := regexSetMatches router.patterns request.path
  if ms.isEmpty then response
  else runCandidates router.handlers ms request response

/-- The fallback a declining handler produces for a given request (the
second component of its `Err`); junk on a handler that accepts. -/
def declineFallback (h : HandlerFn) (request : Request) : Response :=
  match h request with
  | .ok final => final
  | .error (_, fallback) => fallback

/-! ## Handler dispatch (`src/handler/mod.rs`, `Handler::handle`) -/

/-- Inserts one header, replacing any existing entry with the same name
(`http::HeaderMap` insertion as performed by `extend`). -/
def headerInsert (hs : List (String × String)) (kv : String × String) :
    List (String × String) :=
  (hs.filter fun p => p.1 ≠ kv.1) ++ [kv]

/-- Models `response.headers_mut().extend(self.response_headers.clone())`. -/
def extendHeaders (hs extra : List (String × String)) :
    List (String × String) :=
  extra.foldl headerInsert hs

/-- The `Handler` struct: kind-specific logic (taking the request and the
rewritten path), optional path rewriter, configured extra response headers,
and the effective method filter. -/
structure MHandler where
  kind : Request → String → HandlerResult
  path_rewriter : Option (String → String)
  response_headers : List (String × String)
  method_filter : String → Bool

/-- The path handed to the kind-specific logic: the request path rewritten
when the route declares a rewrite template. -/
def rewrittenPath (h : MHandler) (request : Request) : String :=
  match h.path_rewriter with
  | some rw => rw request.path
  | none => request.path

/-- Models `Handler::handle`: decline with 405 when the method filter
rejects; otherwise rewrite the path, run the kind-specific logic, and merge
the configured extra headers into an `Ok` response only. -/
def handlerHandle (h : MHandler) (request : Request) : HandlerResult :=
  if !h.method_filter request.method then
    .error (request, fromStatus 405)
  else
    match h.kind request (rewrittenPath h request) with
    | .ok response =>
      .ok { response with headers := extendHeaders response.headers h.response_headers }
    | .error e => .error e

/-! ## JSON values (`serde_json::Value`)

Numbers are modelled as integers; none of the embedded code paths depend on
non-integer numerics. Objects are association lists with unique keys (the
`serde_json` map), operated on only through the lookup/insert/replace/remove
helpers below. -/

inductive Json where
  | null
  | bool (b : Bool)
  | num (n : Int)
  | str (s : String)
  | arr (elems : List Json)
  | obj (fields : List (String × Json))
deriving Repr

/-! Structural equality of JSON values, modelling `serde_json::Value`'s
`PartialEq` (object fields are kept in their canonical order throughout this
development, so field-order-insensitivity of map equality never comes into
play). -/
mutual
/-- Equality of JSON values (`serde_json::Value::eq`). -/
def jsonBeq : Json → Json → Bool
  | .null, .null => true
  | .bool a, .bool b => a == b
  | .num a, .num b => a == b
  | .str a, .str b => a == b
  | .arr a, .arr b => jsonListBeq a b
  | .obj a, .obj b => jsonFieldsBeq a b
  | _, _ => false

def jsonListBeq : List Json → List Json → Bool
  | [], [] => true
  | a :: as', b :: bs => jsonBeq a b && jsonListBeq as' bs
  | _, _ => false

def jsonFieldsBeq : List (String × Json) → List (String × Json) → Bool
  | [], [] => true
  | (k, a) :: as', (l, b) :: bs => k == l && jsonBeq a b && jsonFieldsBeq as' bs
  | _, _ => false
end

/-- Models `Map::get` on a JSON object. -/
def lookupField : List (String × Json) → String → Option Json
  | [], _ => none
  | (k, v) :: rest, key => if k = key then some v else lookupField rest key

/-- Replaces the value of an existing key, `none` when absent. -/
def replaceField : List (String × Json) → String → Json →
    Option (List (String × Json))
  | [], _, _ => none
  | (k, v) :: rest, key, new =>
    if k = key then some ((k, new) :: rest)
    else (replaceField rest key new).map ((k, v) :: ·)

/-- Models `Map::insert`: replace an existing key's value, else append. -/
def insertField (fields : List (String × Json)) (key : String) (new : Json) :
    List (String × Json) :=
  match replaceField fields key new with
  | some fields' => fields'
  | none => fields ++ [(key, new)]

/-- Models `Map::remove`: drop an existing key, `none` when absent. -/
def removeField : List (String × Json) → String →
    Option (List (String × Json))
  | [], _ => none
  | (k, v) :: rest, key =>
    if k = key then some rest
    else (removeField rest key).map ((k, v) :: ·)

/-! ## JSON Pointer (`serde_json::Value::pointer` / `pointer_mut`) -/

/-- Token unescaping, first `~1 → /` then `~0 → ~`, exactly as
`token.replace("~1", "/").replace("~0", "~")` (left-to-right,
non-overlapping). -/
def replaceTilde1 : List Char → List Char
  | '~' :: '1' :: rest => '/' :: replaceTilde1 rest
  | c :: rest => c :: replaceTilde1 rest
  | [] => []

/-- Second pass of token unescaping (`~0 → ~`). -/
def replaceTilde0 : List Char → List Char
  | '~' :: '0' :: rest => '~' :: replaceTilde0 rest
  | c :: rest => c :: replaceTilde0 rest
  | [] => []

/-- Unescapes one JSON-pointer reference token. -/
def unescapeToken (cs : List Char) : List Char :=
  replaceTilde0 (replaceTilde1 cs)

/-- Models `serde_json`'s `parse_index`: rejects a leading `+` and leading
zeros, otherwise parses a decimal index. -/
def parseIndex (cs : List Char) : Option Nat :=
  if cs.head? = some '+' ∨ (cs.head? = some '0' ∧ cs.length ≠ 1) then none
  else if cs.isEmpty ∨ !cs.all Char.isDigit then none
  else some (cs.foldl (fun n c => n * 10 + (c.toNat - '0'.toNat)) 0)

/-- Splits a JSON-pointer string into unescaped reference tokens: the empty
pointer has no tokens, a pointer not starting with `/` is invalid, else the
pieces between the slashes. -/
def pointerTokens (pointer : String) : Option (List (List Char)) :=
  match pointer.data with
  | [] => some []
  | '/' :: rest => some ((splitOnChar '/' rest).map unescapeToken)
  | _ => none

/-- One navigation step of pointer resolution: key lookup in an object,
parsed-index lookup in an array, failure elsewhere. -/
def pointerStep (v : Json) (token : List Char) : Option Json :=
  match v with
  | .obj fields => lookupField fields (String.mk token)
  | .arr xs => (parseIndex token).bind fun i => xs[i]?
  | _ => none

/-- Resolves a token list against a value. -/
def resolveTokens : Json → List (List Char) → Option Json
  | v, [] => some v
  | v, t :: ts => (pointerStep v t).bind fun v' => resolveTokens v' ts

/-- Models `value.pointer(path)`. -/
def jsonPointer (v : Json) (pointer : String) : Option Json :=
  (pointerTokens pointer).bind (resolveTokens v)

/-- Replaces the sub-value a token list resolves to; `none` exactly when
resolution fails (mirrors writing through `value.pointer_mut(path)`). -/
def setTokens : Json → List (List Char) → Json → Option Json
  | _, [], new => some new
  | .obj fields, t :: ts, new =>
    match lookupField fields (String.mk t) with
    | none => none
    | some c => (setTokens c ts new).bind fun c' =>
        (replaceField fields (String.mk t) c').map Json.obj
  | .arr xs, t :: ts, new =>
    match (parseIndex t).bind fun i => (xs[i]?).map (i, ·) with
    | none => none
    | some (i, c) => (setTokens c ts new).map fun c' => Json.arr (xs.set i c')
  | _, _ :: _, _ => none

/-- Models mutation through `value.pointer_mut(path)`: replace the resolved
sub-value. -/
def jsonPointerSet (v : Json) (pointer : String) (new : Json) : Option Json :=
  (pointerTokens pointer).bind fun ts => setTokens v ts new

/-! ## JSON Patch (`json_patch` crate, version with errors
`PatchError::{TestFailed, InvalidPointer}`)

`json_patch::patch` is documented to apply the operation sequence
atomically: when any operation fails, previously applied operations are
undone and the document is left untouched.  It is therefore modelled as a
pure function from the old document to either an error or the new
document. -/

inductive PatchErr where
  | testFailed
  | invalidPointer
deriving DecidableEq, Repr

/-- A JSON Patch operation (`json_patch::PatchOperation`); `src` models the
`from` member of `move`/`copy`. -/
inductive PatchOp where
  | add (path : String) (value : Json)
  | remove (path : String)
  | replace (path : String) (value : Json)
  | move (src : String) (path : String)
  | copy (src : String) (path : String)
  | test (path : String) (value : Json)
deriving Repr

/-- Decimal index parsing used by the patch operations for their final array
token (`str.parse::<usize>()` bounded by the crate's `parse_index`); unlike
`serde_json`'s pointer parsing it accepts leading zeros. -/
def parseDecimal (cs : List Char) : Option Nat :=
  if cs.isEmpty ∨ !cs.all Char.isDigit then none
  else some (cs.foldl (fun n c => n * 10 + (c.toNat - '0'.toNat)) 0)

/-- Models `json_patch`'s `add`: an empty pointer replaces the whole
document; otherwise the parent (all but the last token, navigated with the
`serde_json` pointer rules) must resolve, and the last token inserts into an
object, appends to an array on `-`, or inserts at an index `≤ len`. -/
def addTokens : Json → List (List Char) → Json → Except PatchErr Json
  | _, [], new => .ok new
  | .obj fields, [t], new => .ok (.obj (insertField fields (String.mk t) new))
  | .arr xs, [t], new =>
    if t = ['-'] then .ok (.arr (xs ++ [new]))
    else
      match parseDecimal t with
      | some i =>
        if i < xs.length + 1 then .ok (.arr (xs.insertIdx i new))
        else .error .invalidPointer
      | none => .error .invalidPointer
  | _, [_], _ => .error .invalidPointer
  | v, t :: ts, new =>
    match pointerStep v t with
    | none => .error .invalidPointer
    | some c =>
      match addTokens c ts new with
      | .error e => .error e
      | .ok c' =>
        match setTokens v [t] c' with
        | some v' => .ok v'
        | none => .error .invalidPointer

/-- Models `json_patch`'s `remove`: the pointer must have at least one token
(`split_pointer` fails on an empty pointer); returns the document without
the referenced element together with the removed value. -/
def removeTokens : Json → List (List Char) → Except PatchErr (Json × Json)
  | _, [] => .error .invalidPointer
  | .obj fields, [t] =>
    match lookupField fields (String.mk t), removeField fields (String.mk t) with
    | some v, some fields' => .ok (.obj fields', v)
    | _, _ => .error .invalidPointer
  | .arr xs, [t] =>
    match parseDecimal t with
    | some i =>
      match xs[i]? with
      | some v => .ok (.arr (xs.eraseIdx i), v)
      | none => .error .invalidPointer
    | none => .error .invalidPointer
  | _, [_] => .error .invalidPointer
  | v, t :: ts =>
    match pointerStep v t with
    | none => .error .invalidPointer
    | some c =>
      match removeTokens c ts with
      | .error e => .error e
      | .ok (c', removed) =>
        match setTokens v [t] c' with
        | some v' => .ok (v', removed)
        | none => .error .invalidPointer

/-- Applies one patch operation to the document, mirroring the crate's
`add`/`remove`/`replace`/`move`/`copy`/`test` helpers. -/
def applyOp (doc : Json) : PatchOp → Except PatchErr Json
  | .add path value =>
    match pointerTokens path with
    | none => .error .invalidPointer
    | some ts => addTokens doc ts value
  | .remove path =>
    match pointerTokens path with
    | none => .error .invalidPointer
    | some ts => (removeTokens doc ts).map (·.1)
  | .replace path value =>
    match pointerTokens path with
    | none => .error .invalidPointer
    | some ts =>
      match setTokens doc ts value with
      | some doc' => .ok doc'
      | none => .error .invalidPointer
  | .move src path =>
    match pointerTokens src with
    | none => .error .invalidPointer
    | some ts =>
      match removeTokens doc ts with
      | .error e => .error e
      | .ok (doc', value) =>
        match pointerTokens path with
        | none => .error .invalidPointer
        | some ts' => addTokens doc' ts' value
  | .copy src path =>
    match jsonPointer doc src with
    | none => .error .invalidPointer
    | some value =>
      match pointerTokens path with
      | none => .error .invalidPointer
      | some ts => addTokens doc ts value
  | .test path value =>
    match jsonPointer doc path with
    | none => .error .invalidPointer
    | some target => if jsonBeq target value then .ok doc else .error .testFailed

/-- Models `json_patch::patch`: the whole operation list applied atomically;
the first failing operation rejects the patch and (in this pure model, by
construction — matching the crate's documented undo-on-failure behaviour)
the document is unchanged. -/
def jsonPatch : Json → List PatchOp → Except PatchErr Json
  | doc, [] => .ok doc
  | doc, op :: rest =>
    match applyOp doc op with
    | .error e => .error e
    | .ok doc' => jsonPatch doc' rest

/-! ## JSON serialization (`serde_json::to_writer` / `to_writer_pretty`) -/

/-- Lowercase hexadecimal digit, as in `serde_json`'s escape table. -/
def hexDigit (n : Nat) : Char :=
  if n < 10 then Char.ofNat ('0'.toNat + n) else Char.ofNat ('a'.toNat + n - 10)

/-- JSON string escaping for one character (`serde_json`'s compact escapes
for the named control characters, `\u00xx` for the remaining ones). -/
def escapeChar (c : Char) : String :=
  if c == '"' then "\\\""
  else if c == '\\' then "\\\\"
  else if c == '\x08' then "\\b"
  else if c == '\x0c' then "\\f"
  else if c == '\n' then "\\n"
  else if c == '\r' then "\\r"
  else if c == '\t' then "\\t"
  else if c.toNat < 0x20 then
    "\\u00" ++ String.mk [hexDigit (c.toNat / 16), hexDigit (c.toNat % 16)]
  else String.mk [c]

/-- A JSON string literal: quotes around the escaped contents. -/
def quoteString (s : String) : String :=
  "\"" ++ String.join (s.data.map escapeChar) ++ "\""

/-! Compact serialization (`serde_json::to_writer`, also
`serde_json::to_string` used by `response::json`). -/
mutual
/-- Compact serialization of a JSON value. -/
def serializeJson : Json → String
  | .null => "null"
  | .bool b => if b then "true" else "false"
  | .num n => toString n
  | .str s => quoteString s
  | .arr xs => "[" ++ serializeList xs ++ "]"
  | .obj fs => "\x7b" ++ serializeFields fs ++ "\x7d"

/-- Comma-joined compact serialization of array elements. -/
def serializeList : List Json → String
  | [] => ""
  | [x] => serializeJson x
  | x :: xs => serializeJson x ++ "," ++ serializeList xs

/-- Comma-joined compact serialization of object members. -/
def serializeFields : List (String × Json) → String
  | [] => ""
  | [(k, v)] => quoteString k ++ ":" ++ serializeJson v
  | (k, v) :: fs => quoteString k ++ ":" ++ serializeJson v ++ "," ++ serializeFields fs
end

/-- Two-space indentation at the given nesting depth (`serde_json`'s
`PrettyFormatter` default indent). -/
def indentAt (level : Nat) : String :=
  String.join (List.replicate level "  ")

/-! Pretty serialization (`serde_json::to_writer_pretty`). -/
mutual
/-- Pretty serialization of a JSON value at a nesting depth. -/
def serializePrettyAt : Nat → Json → String
  | _, .null => "null"
  | _, .bool b => if b then "true" else "false"
  | _, .num n => toString n
  | _, .str s => quoteString s
  | _, .arr [] => "[]"
  | level, .arr (x :: xs) =>
    "[\n" ++ prettyElems (level + 1) (x :: xs) ++ "\n" ++ indentAt level ++ "]"
  | _, .obj [] => "\x7b\x7d"
  | level, .obj (f :: fs) =>
    "\x7b\n" ++ prettyMembers (level + 1) (f :: fs) ++ "\n" ++ indentAt level ++ "\x7d"

/-- Pretty-printed array elements, one per line. -/
def prettyElems : Nat → List Json → String
  | level, [x] => indentAt level ++ serializePrettyAt level x
  | level, x :: xs =>
    indentAt level ++ serializePrettyAt level x ++ ",\n" ++ prettyElems level xs
  | _, [] => ""

/-- Pretty-printed object members, one per line. -/
def prettyMembers : Nat → List (String × Json) → String
  | level, [(k, v)] => indentAt level ++ quoteString k ++ ": " ++ serializePrettyAt level v
  | level, (k, v) :: fs =>
    indentAt level ++ quoteString k ++ ": " ++ serializePrettyAt level v ++ ",\n"
      ++ prettyMembers level fs
  | _, [] => ""
end

/-- Pretty serialization of a whole document. -/
def serializePretty (v : Json) : String :=
  serializePrettyAt 0 v

/-- Serialization as chosen by the route configuration
(`if self.config.pretty { to_writer_pretty } else { to_writer }`). -/
def serializeCfg (pretty : Bool) (v : Json) : String :=
  if pretty then serializePretty v else serializeJson v

/-! ## JSON-Store PATCH handler (`src/handler/json.rs`) -/

/-- Models `response::json(value)`: the compact serialization as body with a
JSON content type and the default 200 status. -/
def jsonResponse (value : Json) : Response :=
  { status := 200,
    headers := [("content-type", "application/json")],
    body := serializeJson value }

/-- The JSON-Store shared state: the in-memory document plus a counter of
`dirty.notify()` calls issued so far (abstracting the `tokio::sync::Notify`
signal; one call = one increment). -/
structure StoreState where
  value : Json
  notifyCount : Nat
deriving Repr

/-- Models `JsonHandler::handle_patch` after the body has been parsed into a
patch (i.e. after `json_request` returned `Ok`): resolve the pointer under
the write lock (not found → 404), apply the patch to the sub-value (test
failure → 409, invalid pointer inside the patch → 404, either leaving the
document untouched), and on success write the new sub-value back, respond
with its serialization and signal the dirty notification once. -/
def handlePatchCore (st : StoreState) (path : String) (patch : List PatchOp) :
    StoreState × Response :=
  match jsonPointer st.value path with
  | none => (st, fromStatus 404)
  | some subvalue =>
    match jsonPatch subvalue patch with
    | .error .testFailed => (st, fromStatus 409)
    | .error .invalidPointer => (st, fromStatus 404)
    | .ok subvalue' =>
      match jsonPointerSet st.value path subvalue' with
      | some value' =>
        ({ value := value', notifyCount := st.notifyCount + 1 }, jsonResponse subvalue')
      | none => (st, fromStatus 404)

/-- The request's Content-Type header as `typed_try_get::<ContentType>()`
sees it: absent, present but unparseable, or parsed into a media type with
the given subtype and optional suffix (both already lowercased by the `mime`
crate). -/
inductive CTHeader where
  | absent
  | malformed
  | mime (subtype : String) (suffix : Option String)
deriving DecidableEq, Repr

/-- Models `json_request`: a malformed Content-Type header is a 400; a
present media type that neither has subtype `json` nor suffix `+json` is a
415; an absent header is accepted.  The body (modelled as the result of
parsing it as a patch document; transport errors out of scope) must parse,
else 400. -/
def jsonRequest (ct : CTHeader) (body : Option (List PatchOp)) :
    Except Response (List PatchOp) :=
  match ct with
  | .malformed => .error (fromStatus 400)
  | .mime subtype suffix =>
    if subtype ≠ "json" ∧ suffix ≠ some "json" then .error (fromStatus 415)
    else
      match body with
      | some patch => .ok patch
      | none => .error (fromStatus 400)
  | .absent =>
    match body with
    | some patch => .ok patch
    | none => .error (fromStatus 400)

/-- Models `JsonHandler::handle_patch` end to end: `json_request` first
(its error response is returned with the store untouched), then the core
patch logic. -/
def handlePatch (st : StoreState) (path : String) (ct : CTHeader)
    (body : Option (List PatchOp)) : StoreState × Response :=
  match jsonRequest ct body with
  | .error response => (st, response)
  | .ok patch => handlePatchCore st path patch

/-! ## Sync worker (`src/handler/json.rs`, `Sync::run`/`write`/`fill_buf`) -/

/-- The sync worker's owned state: the reusable serialization buffer and the
current contents of the backing file. -/
structure SyncState where
  buf : String
  file : String
deriving DecidableEq, Repr

/-- Models `Sync::fill_buf`: serialize the document (read under the shared
lock) **appending** into the reusable buffer, pretty or compact per
configuration. -/
def fill_buf (pretty : Bool) (st : SyncState) (value : Json) : SyncState :=
  { st with buf := st.buf ++ serializeCfg pretty value }

/-- Models `Sync::write` at one wake, with `value` the document observed
under the read lock and `ioOk` whether the seek/truncate/write syscalls
succeed: on success the file holds exactly the buffer and the buffer is
cleared; on failure the buffer is left as filled (the file's intermediate
contents after a failed overwrite are irrelevant to later successful
flushes, which rewrite the whole file, and are modelled as unchanged). -/
def syncWrite (pretty : Bool) (st : SyncState) (value : Json) (ioOk : Bool) :
    SyncState :=
  let st' := fill_buf pretty st value
  if ioOk then { buf := "", file := st'.buf } else st'

/-- Models the `Sync::run` loop over a finite trace of wakes, each carrying
the document value observed at that wake and whether the flush I/O
succeeded (a failure is logged and the loop just waits for the next
signal). -/
def syncRun (pretty : Bool) : SyncState → List (Json × Bool) → SyncState
  | st, [] => st
  | st, (value, ioOk) :: rest => syncRun pretty (syncWrite pretty st value ioOk) rest

/-! ## Directory handler (`src/handler/fs.rs`) -/

/-- A component of `std::path::Path::components()`.  `winPrefix` stands for
`Component::Prefix` (a Windows drive letter or UNC marker; never produced
when parsing a Unix path, but matched by `sanitize_path`). -/
inductive PComponent where
  | winPrefix
  | rootDir
  | curDir
  | parentDir
  | normal (name : String)
deriving DecidableEq, Repr

/-- True exactly for `normal` components. -/
def PComponent.isNormal : PComponent → Bool
  | .normal _ => true
  | _ => false

/-- The file-name of a component pushed onto a `PathBuf`. -/
def PComponent.name? : PComponent → Option String
  | .normal n => some n
  | _ => none

/-- Models `Path::new(path).components()` for Unix paths: a leading `/`
yields `RootDir`; a leading `.` on a relative path yields `CurDir`; empty
and remaining `.` pieces are dropped; `..` yields `ParentDir`; anything else
is a `Normal` component. -/
def pathComponents (s : String) : List PComponent :=
  let parts := splitOnChar '/' s.data
  let isAbs : Bool := s.data.head? = some '/'
  let root : List PComponent := if isAbs then [.rootDir] else []
  let cur : List PComponent :=
    if !isAbs ∧ parts.head? = some ['.'] then [.curDir] else []
  let rest := parts.filterMap fun t =>
    if t.isEmpty ∨ t = ['.'] then none
    else if t = ['.', '.'] then some .parentDir
    else some (.normal (String.mk t))
  root ++ cur ++ rest

/-- The accumulator loop of `sanitize_path`: a prefix component rejects the
whole path, `..` pops the last accumulated component (rejecting when the
accumulator is empty), root and current-directory markers are dropped, and
normal components are pushed. -/
def sanitizeLoop : List PComponent → List PComponent → Option (List PComponent)
  | result, [] => some result
  | result, c :: rest =>
    match c with
    | .winPrefix => none
    | .parentDir =>
      match result with
      | [] => none
      | _ :: _ => sanitizeLoop result.dropLast rest
    | .rootDir => sanitizeLoop result rest
    | .curDir => sanitizeLoop result rest
    | .normal n => sanitizeLoop (result ++ [.normal n]) rest

/-- Models `sanitize_path` in `src/handler/fs.rs`. -/
def sanitize_path (comps : List PComponent) : Option (List PComponent) :=
  sanitizeLoop [] comps

/-- What `DirHandler::handle` does with the already percent-decoded subpath
(method check and decoding happen before this point): either the file at the
base directory extended by the sanitized components is served, or a 404 is
returned. -/
inductive DirOutcome where
  | serve (pathFromRoot : List String)
  | respond (status : Nat)
deriving DecidableEq, Repr

/-- The sanitize-and-serve step of `DirHandler::handle`: sanitization
failure is a 404, success serves `self.config.path` extended with the
sanitized components. -/
def dirHandle (base : List String) (decodedPath : String) : DirOutcome :=
  match sanitize_path (pathComponents decodedPath) with
  | some comps => .serve (base ++ comps.filterMap PComponent.name?)
  | none => .respond 404

/-! ## Reverse-proxy URI composition (`src/handler/proxy.rs`) -/

/-- The path-and-query part of an `http::Uri`: the path plus the optional
query string (without its `?`). -/
structure PathAndQuery where
  path : String
  query : Option String
deriving DecidableEq, Repr

/-- String prefix test over the underlying characters
(`str::starts_with`). -/
def strStartsWith (s pre : String) : Bool :=
  pre.data.isPrefixOf s.data

/-- String suffix test over the underlying characters
(`str::ends_with`). -/
def strEndsWith (s suf : String) : Bool :=
  suf.data.isSuffixOf s.data

/-- Removes the last character (`String::pop`). -/
def strPop (s : String) : String :=
  String.mk s.data.dropLast

/-- Models `append_path` in `src/handler/proxy.rs`, producing the composed
path-and-query **string** handed to `.parse()`: start from the base path,
drop its trailing `/` when the sub-path also starts with `/`, insert a `/`
when neither side provides one, append the sub-path, then append the base's
query string unchanged. -/
def append_path (base : Option PathAndQuery) (path : String) : String :=
  match base with
  | none => path
  | some b =>
    let result := b.path
    let result :=
      if strEndsWith result "/" && strStartsWith path "/" then strPop result
      else if !strEndsWith result "/" && !strStartsWith path "/" then result ++ "/"
      else result
    let result := result ++ path
    match b.query with
    | some q => result ++ "?" ++ q
    | none => result

/-- Parses a path-and-query string at its first `?`
(`str::parse::<PathAndQuery>`, with URI character validation out of scope:
every composed string in this development is a valid path-and-query). -/
def parsePathAndQuery (s : String) : PathAndQuery :=
  match splitOnChar '?' s.data with
  | [] => { path := s, query := none }
  | [p] => { path := String.mk p, query := none }
  | p :: q => { path := String.mk p,
                query := some (String.intercalate "?" (q.map String.mk)) }

/-- An upstream `http::Uri` as the proxy holds it: scheme, authority and
optional path-and-query. -/
structure MUri where
  scheme : String
  authority : String
  pq : Option PathAndQuery
deriving DecidableEq, Repr

/-- Models `ProxyHandler::get_uri`: rebuild the URI from the configured
scheme and authority with the composed path-and-query. -/
def get_uri (config : MUri) (path : String) : MUri :=
  { scheme := config.scheme,
    authority := config.authority,
    pq := some (parsePathAndQuery (append_path config.pq path)) }

/-- Renders a URI back to its string form. -/
def uriToString (u : MUri) : String :=
  u.scheme ++ "://" ++ u.authority ++
    (match u.pq with
     | some pq =>
       pq.path ++ (match pq.query with | some q => "?" ++ q | none => "")
     | none => "")

/-- The query-string suffix appended after the composed path. -/
def querySuffix : Option String → String
  | some q => "?" ++ q
  | none => ""

/-- The composition rule as the specification words it: drop a trailing
slash on the base when the sub-path starts with one, insert a `/` when
neither side provides one, otherwise plain concatenation; the base query
appended unchanged. -/
def appendPathSpec (b : PathAndQuery) (path : String) : String :=
  (if strEndsWith b.path "/" && strStartsWith path "/" then strPop b.path ++ path
   else if !strEndsWith b.path "/" && !strStartsWith path "/" then b.path ++ "/" ++ path
   else b.path ++ path) ++ querySuffix b.query

/-!
# Verified properties
-/

/-- The unanchored validation regex `[class]*` matches every haystack: the
empty substring (the empty suffix of the empty prefix) is a run of class
characters. -/
theorem regexIsMatchStar_eq_true (cs : List Char) : regexIsMatchStar cs = true := by
  simp only [regexIsMatchStar, decide_eq_true_eq]
  exact ⟨cs, (List.mem_tails cs cs).mpr (List.suffix_refl cs),
    [], (List.mem_inits [] cs).mpr List.nil_prefix, rfl⟩

/-- Compilation of a segment list never fails, because its validation check
never fires. -/
theorem compileLoop_ok (segs : List (List Char)) :
    ∃ p rsegs, compileLoop segs = .ok (p, rsegs) := by
  induction segs with
  | nil => exact ⟨⟨0, 0⟩, [], rfl⟩
  | cons seg rest ih =>
    obtain ⟨p, rsegs, hrest⟩ := ih
    simp only [compileLoop, regexIsMatchStar_eq_true, Bool.not_true, Bool.false_eq_true,
      if_false, hrest]
    by_cases h1 : seg = ['*']
    · rw [if_pos h1]; exact ⟨_, _, rfl⟩
    · rw [if_neg h1]
      by_cases h2 : seg = ['*', '*']
      · rw [if_pos h2]; exact ⟨_, _, rfl⟩
      · rw [if_neg h2]; exact ⟨_, _, rfl⟩

/-- C3 (code bug): `Route::new` never fails, because the validation regex
`[\w\-\.~%!$&'()*+,;=:@]*` is unanchored and a `*`-quantified class matches
the empty substring of any haystack, so `is_match` is always true and the
`"invalid character in path"` error is unreachable.  In particular the
pattern `/a#b`, whose `#` lies outside the allowed class, compiles
successfully (to a route matching the literal segment `a#b`) instead of
being rejected. -/
theorem route_new_never_rejects :
    (∀ path : String, ∃ r, routeNew path = .ok r) ∧
    (∀ cs : List Char, regexIsMatchStar cs = true) ∧
    routeNew "/a#b" = .ok ⟨⟨0, 0⟩, [.lit ['a', '#', 'b']]⟩ ∧
    pathChar '#' = false := by
  refine ⟨fun path => ?_, regexIsMatchStar_eq_true, rfl, rfl⟩
  obtain ⟨p, rsegs, h⟩ := compileLoop_ok (splitSegments path)
  exact ⟨⟨p, rsegs⟩, by simp [routeNew, h]⟩

/-- C8: the compiled regex for pattern `/a/*/c` matches path `/a/x/c` and
does not match `/a/x/y/c`; the compiled regex for pattern `/a/**` matches
`/a/x/y/z` and does not match `/a`. -/
theorem wildcard_matching_examples :
    patternMatches "/a/*/c" "/a/x/c" = true ∧
    patternMatches "/a/*/c" "/a/x/y/c" = false ∧
    patternMatches "/a/**" "/a/x/y/z" = true ∧
    patternMatches "/a/**" "/a" = false := by
  exact ⟨by decide, by decide, by decide, by decide⟩

/-- C5 (code bug): a flush that starts from an empty buffer writes exactly
the serialization (pretty or compact per configuration) of the value read
at that wake — but `Sync::write` clears the buffer only after a
*successful* write, so on the wake after a failed flush the reusable buffer
still holds the previous serialization and the worker writes the stale
bytes followed by the current serialization.  Concretely: flushing value
`2` fails, then flushing value `3` succeeds and leaves the file holding
`23` rather than `3`. -/
theorem sync_flush_stale_buffer :
    (∀ (pretty : Bool) (value : Json) (file : String),
       syncWrite pretty ⟨"", file⟩ value true = ⟨"", serializeCfg pretty value⟩) ∧
    syncRun false ⟨"", "1"⟩ [(.num 2, false), (.num 3, true)] = ⟨"", "23"⟩ ∧
    serializeJson (.num 3) = "3" ∧
    ("23" : String) ≠ "3" := by
  exact ⟨fun pretty value file => rfl, rfl, rfl, by decide⟩

/-- C9: with a base path present, the proxied target is the base path and
the forwarded sub-path joined with exactly one `/` at the seam (trailing
slash dropped when the sub-path brings its own, a `/` inserted when neither
side has one) with the base query appended unchanged — stated as equality
with the specification-worded composition rule, plus the three concrete
compositions. -/
theorem append_path_seam :
    (∀ (b : PathAndQuery) (path : String),
       append_path (some b) path = appendPathSpec b path) ∧
    uriToString (get_uri ⟨"http", "up", some ⟨"/api/", none⟩⟩ "/x") = "http://up/api/x" ∧
    uriToString (get_uri ⟨"http", "up", some ⟨"/api", none⟩⟩ "/x") = "http://up/api/x" ∧
    uriToString (get_uri ⟨"http", "up", some ⟨"/api", some "v=1"⟩⟩ "/x")
      = "http://up/api/x?v=1" := by
  refine ⟨fun b path => ?_, by decide, by decide, by decide⟩
  obtain ⟨bp, bq⟩ := b
  simp only [append_path, appendPathSpec, querySuffix]
  cases bq <;> by_cases h1 : strEndsWith bp "/" <;> by_cases h2 : strStartsWith path "/" <;>
    simp [h1, h2, String.append_assoc]

/-- C10: the configured extra response headers are merged into every
response the kind-specific logic itself returns (whatever its status, which
covers its 400/404/409/415/500 error responses), but not into a
method-filter decline (the error path carries the 405 fallback untouched,
with no headers) and not into the Router's own 404 for an unmatched path
(an empty-header `from_status` response). -/
theorem response_headers_merge :
    (∀ (h : MHandler) (request : Request) (response : Response),
       h.method_filter request.method = true →
       h.kind request (rewrittenPath h request) = .ok response →
       handlerHandle h request =
         .ok { response with
               headers := extendHeaders response.headers h.response_headers }) ∧
    (∀ (h : MHandler) (request : Request),
       h.method_filter request.method = false →
       handlerHandle h request = .error (request, fromStatus 405) ∧
         (fromStatus 405).headers = []) ∧
    (∀ (h : MHandler) (request : Request) (e : Request × Response),
       h.method_filter request.method = true →
       h.kind request (rewrittenPath h request) = .error e →
       handlerHandle h request = .error e) ∧
    (∀ (router : MRouter) (request : Request),
       regexSetMatches router.patterns request.path = [] →
       tryHandle router request = fromStatus 404 ∧ (fromStatus 404).headers = []) := by
  refine ⟨fun h request response hm hk => ?_, fun h request hm => ⟨?_, rfl⟩,
    fun h request e hm hk => ?_, fun router request hms => ⟨?_, rfl⟩⟩
  · simp [handlerHandle, hm, hk]
  · simp [handlerHandle, hm]
  · simp [handlerHandle, hm, hk]
  · simp [tryHandle, hms]

/-- Closed instance of the header-merge theorem: a handler whose kind logic
answers 409 gets the configured extra header merged in; a method-filter
decline keeps the bare 405. -/
theorem response_headers_merge_witness :
    handlerHandle
        ⟨fun _ _ => .ok (fromStatus 409), none, [("x-extra", "1")], fun m => m == "GET"⟩
        ⟨"GET", "/p"⟩
      = .ok { status := 409, headers := [("x-extra", "1")], body := "" } ∧
    handlerHandle
        ⟨fun _ _ => .ok (fromStatus 409), none, [("x-extra", "1")], fun m => m == "GET"⟩
        ⟨"POST", "/p"⟩
      = .error (⟨"POST", "/p"⟩, fromStatus 405) := by
  constructor
  · exact response_headers_merge.1
      ⟨fun _ _ => .ok (fromStatus 409), none, [("x-extra", "1")], fun m => m == "GET"⟩
      ⟨"GET", "/p"⟩ (fromStatus 409) rfl rfl
  · exact (response_headers_merge.2.1
      ⟨fun _ _ => .ok (fromStatus 409), none, [("x-extra", "1")], fun m => m == "GET"⟩
      ⟨"POST", "/p"⟩ rfl).1

/-- The sanitize loop only ever accumulates normal components. -/
theorem sanitizeLoop_all_normal :
    ∀ (comps acc res : List PComponent),
      acc.all PComponent.isNormal = true →
      sanitizeLoop acc comps = some res →
      res.all PComponent.isNormal = true := by
  intro comps
  induction comps with
  | nil =>
    intro acc res hacc h
    simp only [sanitizeLoop, Option.some.injEq] at h
    exact h ▸ hacc
  | cons c rest ih =>
    intro acc res hacc h
    cases c with
    | winPrefix => simp [sanitizeLoop] at h
    | parentDir =>
      cases acc with
      | nil => simp [sanitizeLoop] at h
      | cons a as' =>
        refine ih _ res ?_ h
        have hsub : (a :: as').dropLast.Sublist (a :: as') := List.dropLast_sublist _
        simp only [List.all_eq_true] at hacc ⊢
        exact fun x hx => hacc x (hsub.subset hx)
    | rootDir => exact ih acc res hacc h
    | curDir => exact ih acc res hacc h
    | normal n =>
      refine ih _ res ?_ h
      simp only [List.all_append, hacc, List.all_cons, List.all_nil]
      rfl

/-- A prefix component anywhere in the component list rejects the whole
path. -/
theorem sanitizeLoop_winPrefix_none :
    ∀ (comps acc : List PComponent),
      PComponent.winPrefix ∈ comps → sanitizeLoop acc comps = none := by
  intro comps
  induction comps with
  | nil => intro acc h; cases h
  | cons c rest ih =>
    intro acc h
    cases c with
    | winPrefix => rfl
    | parentDir =>
      have hrest : PComponent.winPrefix ∈ rest := by
        cases h with
        | tail _ h' => exact h'
      cases acc with
      | nil => rfl
      | cons a as' => exact ih _ hrest
    | rootDir => exact ih _ (by cases h with | tail _ h' => exact h')
    | curDir => exact ih _ (by cases h with | tail _ h' => exact h')
    | normal n => exact ih _ (by cases h with | tail _ h' => exact h')

/-- C7: sanitization keeps only normal components — a Windows
prefix/drive marker rejects the path, a leading `..` (nothing accumulated
yet) rejects the path, `..` otherwise pops the last accumulated component,
root and current-directory markers are dropped — so the served file is the
configured base directory extended by normal components only, and the
traversal attempt `../../etc/passwd` is answered with 404. -/
theorem sanitize_path_below_base :
    (∀ (comps res : List PComponent),
       sanitize_path comps = some res → res.all PComponent.isNormal = true) ∧
    (∀ comps : List PComponent,
       PComponent.winPrefix ∈ comps → sanitize_path comps = none) ∧
    (∀ rest : List PComponent, sanitize_path (.parentDir :: rest) = none) ∧
    (∀ (acc : List PComponent) (c : PComponent) (rest : List PComponent),
       sanitizeLoop (acc ++ [c]) (.parentDir :: rest) = sanitizeLoop acc rest) ∧
    (∀ (acc rest : List PComponent),
       sanitizeLoop acc (.rootDir :: rest) = sanitizeLoop acc rest ∧
       sanitizeLoop acc (.curDir :: rest) = sanitizeLoop acc rest) ∧
    (∀ (base : List String) (path : String) (res : List PComponent),
       sanitize_path (pathComponents path) = some res →
       dirHandle base path = .serve (base ++ res.filterMap PComponent.name?)) ∧
    dirHandle ["srv", "www"] "../../etc/passwd" = .respond 404 := by
  refine ⟨fun comps res h => sanitizeLoop_all_normal comps [] res rfl h,
    fun comps h => sanitizeLoop_winPrefix_none comps [] h,
    fun rest => rfl,
    fun acc c rest => ?_,
    fun acc rest => ⟨rfl, rfl⟩,
    fun base path res h => ?_,
    by decide⟩
  · cases acc with
    | nil => simp [sanitizeLoop]
    | cons a as' =>
      have hdrop : ((a :: as') ++ [c]).dropLast = a :: as' := List.dropLast_concat
      simp only [sanitizeLoop, List.cons_append]
      show sanitizeLoop ((a :: as') ++ [c]).dropLast rest = sanitizeLoop (a :: as') rest
      rw [hdrop]
  · simp [dirHandle, h]

/-- Closed instance of the sanitization theorem: `a/../b/c` sanitizes to the
normal components `b/c` and is served from under the base directory. -/
theorem sanitize_path_below_base_witness :
    ([PComponent.normal "b", PComponent.normal "c"].all PComponent.isNormal = true) ∧
    dirHandle ["srv", "www"] "a/../b/c" = .serve ["srv", "www", "b", "c"] := by
  constructor
  · exact sanitize_path_below_base.1 (pathComponents "a/../b/c")
      [PComponent.normal "b", PComponent.normal "c"] rfl
  · exact sanitize_path_below_base.2.2.2.2.2.1 ["srv", "www"] "a/../b/c"
      [PComponent.normal "b", PComponent.normal "c"] rfl

/-- When a key is present, replacing its value succeeds. -/
theorem replaceField_isSome :
    ∀ (fields : List (String × Json)) (key : String) (v new : Json),
      lookupField fields key = some v →
      ∃ fields', replaceField fields key new = some fields' := by
  intro fields
  induction fields with
  | nil => intro key v new h; cases h
  | cons f rest ih =>
    intro key v new h
    obtain ⟨k, w⟩ := f
    by_cases hk : k = key
    · subst hk
      exact ⟨(k, new) :: rest, by simp [replaceField]⟩
    · simp only [lookupField, hk, if_false] at h
      obtain ⟨fields', h'⟩ := ih key v new h
      exact ⟨(k, w) :: fields', by simp [replaceField, hk, h']⟩

/-- When a token list resolves, writing through it succeeds (the
`pointer_mut` coherence of get and set). -/
theorem setTokens_isSome :
    ∀ (ts : List (List Char)) (v sub new : Json),
      resolveTokens v ts = some sub → ∃ v', setTokens v ts new = some v' := by
  intro ts
  induction ts with
  | nil => intro v sub new _; exact ⟨new, by cases v <;> rfl⟩
  | cons t rest ih =>
    intro v sub new h
    simp only [resolveTokens] at h
    cases hstep : pointerStep v t with
    | none => rw [hstep] at h; simp at h
    | some c =>
      rw [hstep] at h
      obtain ⟨c', hc'⟩ := ih c sub new h
      cases v with
      | obj fields =>
        have hlk : lookupField fields (String.mk t) = some c := hstep
        obtain ⟨fields', hf⟩ := replaceField_isSome fields (String.mk t) c c' hlk
        exact ⟨.obj fields', by simp [setTokens, hlk, hc', hf]⟩
      | arr xs =>
        simp only [pointerStep] at hstep
        cases hpi : parseIndex t with
        | none => rw [hpi] at hstep; simp at hstep
        | some i =>
          rw [hpi] at hstep
          have hxi : xs[i]? = some c := hstep
          exact ⟨.arr (xs.set i c'), by simp [setTokens, hpi, hxi, hc']⟩
      | null => simp [pointerStep] at hstep
      | bool b => simp [pointerStep] at hstep
      | num n => simp [pointerStep] at hstep
      | str s => simp [pointerStep] at hstep

/-- When a pointer resolves, writing through it succeeds. -/
theorem jsonPointerSet_isSome (v : Json) (pointer : String) (sub new : Json)
    (h : jsonPointer v pointer = some sub) :
    ∃ v', jsonPointerSet v pointer new = some v' := by
  unfold jsonPointer at h
  unfold jsonPointerSet
  cases hts : pointerTokens pointer with
  | none => rw [hts] at h; simp at h
  | some ts => rw [hts] at h; exact setTokens_isSome ts v sub new h

/-- C4: a PATCH whose pointer does not resolve answers 404 with the store
(value and notification count) exactly unchanged; a patch application
failing with a test failure answers 409, one failing on an invalid pointer
inside the patch answers 404, each leaving the store exactly unchanged; a
successful PATCH writes the patched sub-value back, answers with its
serialization, and signals the dirty notification exactly once. -/
theorem patch_atomicity_and_notification :
    (∀ (st : StoreState) (path : String) (patch : List PatchOp),
       jsonPointer st.value path = none →
       handlePatchCore st path patch = (st, fromStatus 404)) ∧
    (∀ (st : StoreState) (path : String) (patch : List PatchOp) (sub : Json),
       jsonPointer st.value path = some sub →
       jsonPatch sub patch = .error .testFailed →
       handlePatchCore st path patch = (st, fromStatus 409)) ∧
    (∀ (st : StoreState) (path : String) (patch : List PatchOp) (sub : Json),
       jsonPointer st.value path = some sub →
       jsonPatch sub patch = .error .invalidPointer →
       handlePatchCore st path patch = (st, fromStatus 404)) ∧
    (∀ (st : StoreState) (path : String) (patch : List PatchOp) (sub sub' : Json),
       jsonPointer st.value path = some sub →
       jsonPatch sub patch = .ok sub' →
       ∃ value', jsonPointerSet st.value path sub' = some value' ∧
         handlePatchCore st path patch =
           ({ value := value', notifyCount := st.notifyCount + 1 }, jsonResponse sub')) := by
  refine ⟨fun st path patch h => by simp [handlePatchCore, h],
    fun st path patch sub h h2 => by simp [handlePatchCore, h, h2],
    fun st path patch sub h h2 => by simp [handlePatchCore, h, h2],
    fun st path patch sub sub' h h2 => ?_⟩
  obtain ⟨value', hset⟩ := jsonPointerSet_isSome st.value path sub sub' h
  exact ⟨value', hset, by simp [handlePatchCore, h, h2, hset]⟩

/-- Closed instance of the patch theorem: a failing `test` leaves the store
untouched and answers 409; a successful `replace` commits the new value,
answers its serialization, and bumps the notification count from 0 to 1. -/
theorem patch_atomicity_witness :
    handlePatchCore ⟨.obj [("a", .num 1)], 0⟩ "/a" [.test "" (.num 2)]
      = (⟨.obj [("a", .num 1)], 0⟩, fromStatus 409) ∧
    handlePatchCore ⟨.obj [("a", .num 1)], 0⟩ "/a" [.replace "" (.num 5)]
      = (⟨.obj [("a", .num 5)], 1⟩, jsonResponse (.num 5)) := by
  constructor
  · exact patch_atomicity_and_notification.2.1 ⟨.obj [("a", .num 1)], 0⟩ "/a"
      [.test "" (.num 2)] (.num 1) rfl rfl
  · obtain ⟨v', hv', heq⟩ := patch_atomicity_and_notification.2.2.2
      ⟨.obj [("a", .num 1)], 0⟩ "/a" [.replace "" (.num 5)] (.num 1) (.num 5) rfl rfl
    have hv : v' = Json.obj [("a", Json.num 5)] :=
      Option.some.inj (hv'.symm.trans rfl)
    rw [hv] at heq
    exact heq

/-- Every response out of the core PATCH logic is a 404, a 409 or a 200 —
in particular never a 415. -/
theorem handlePatchCore_status (st : StoreState) (path : String)
    (patch : List PatchOp) :
    (handlePatchCore st path patch).2.status = 404 ∨
    (handlePatchCore st path patch).2.status = 409 ∨
    (handlePatchCore st path patch).2.status = 200 := by
  unfold handlePatchCore
  split
  · exact .inl rfl
  · split
    · exact .inr (.inl rfl)
    · exact .inl rfl
    · split
      · exact .inr (.inr rfl)
      · exact .inl rfl

/-- C6 counterexample: a PATCH with **no** Content-Type header is not
rejected with 415 — `json_request` treats an absent header as acceptable —
and it proceeds to read and modify the store (here the empty patch
succeeds, answers 200 and signals the dirty notification). -/
theorem absent_content_type_accepted :
    handlePatch ⟨.obj [], 0⟩ "" .absent (some [])
      = (⟨.obj [], 1⟩, jsonResponse (.obj [])) ∧
    (jsonResponse (.obj [])).status = 200 ∧
    (200 : Nat) ≠ 415 := by
  exact ⟨rfl, rfl, by decide⟩

/-- C6 (amended): a PATCH whose Content-Type header is **present** but
neither a JSON media type nor a `+json`-suffixed one answers 415 with the
store untouched; an absent Content-Type header is accepted, and such a
request can never produce a 415 (a malformed header yields 400 and the
patch pipeline itself only yields 400/404/409/200). -/
theorem content_type_gate :
    (∀ (st : StoreState) (path : String) (body : Option (List PatchOp))
       (subtype : String) (suffix : Option String),
       subtype ≠ "json" → suffix ≠ some "json" →
       handlePatch st path (.mime subtype suffix) body = (st, fromStatus 415)) ∧
    (∀ (st : StoreState) (path : String) (body : Option (List PatchOp)),
       (handlePatch st path .absent body).2.status ≠ 415) ∧
    (∀ (st : StoreState) (path : String) (body : Option (List PatchOp)),
       (handlePatch st path .malformed body) = (st, fromStatus 400)) := by
  refine ⟨fun st path body subtype suffix h1 h2 => ?_, fun st path body => ?_,
    fun st path body => rfl⟩
  · simp [handlePatch, jsonRequest, h1, h2]
  · cases body with
    | none => simp [handlePatch, jsonRequest, fromStatus]
    | some patch =>
      have h := handlePatchCore_status st path patch
      simp only [handlePatch, jsonRequest]
      rcases h with h | h | h <;> omega

/-- Closed instance of the content-type theorem: a PATCH carrying
`Content-Type: application/yaml` is answered with 415 and the store is
untouched. -/
theorem content_type_gate_witness :
    handlePatch ⟨.obj [], 0⟩ "" (.mime "yaml" none) (some [])
      = (⟨.obj [], 0⟩, fromStatus 415) := by
  exact content_type_gate.1 ⟨.obj [], 0⟩ "" (some []) "yaml" none
    (by decide) (by simp)

/-- Compilation produces exactly the wildcard counts of the segment list as
the precedence. -/
theorem compileLoop_counts :
    ∀ segs : List (List Char), ∃ rsegs,
      compileLoop segs = .ok (⟨segs.count ['*', '*'], segs.count ['*']⟩, rsegs) := by
  intro segs
  induction segs with
  | nil => exact ⟨[], rfl⟩
  | cons seg rest ih =>
    obtain ⟨rsegs, hrest⟩ := ih
    simp only [compileLoop, regexIsMatchStar_eq_true, Bool.not_true, Bool.false_eq_true,
      if_false, hrest]
    by_cases h1 : seg = ['*']
    · subst h1
      rw [if_pos rfl]
      refine ⟨.wild :: rsegs, ?_⟩
      simp [List.count_cons]
    · rw [if_neg h1]
      by_cases h2 : seg = ['*', '*']
      · subst h2
        rw [if_pos rfl]
        refine ⟨.multi :: rsegs, ?_⟩
        simp [List.count_cons, h1]
      · rw [if_neg h2]
        refine ⟨.lit seg :: rsegs, ?_⟩
        have hb1 : (seg == ['*']) = false := by
          simpa using h1
        have hb2 : (seg == ['*', '*']) = false := by
          simpa using h2
        simp [List.count_cons, hb1, hb2]

/-- The order `precLe` is transitive. -/
theorem precLe_trans (a b c : Precedence) :
    precLe a b = true → precLe b c = true → precLe a c = true := by
  simp only [precLe, decide_eq_true_eq]
  omega

/-- The order `precLe` is total. -/
theorem precLe_total (a b : Precedence) :
    (precLe a b || precLe b a) = true := by
  simp only [precLe, Bool.or_eq_true, decide_eq_true_eq]
  omega

/-- Wildcard-class rank: 0 for a literal-only score, 1 for single wildcards
only, 2 for any `**`. -/
def rank (p : Precedence) : Nat :=
  if p.multi_wildcards = 0 then (if p.wildcards = 0 then 0 else 1) else 2

/-- The lexicographic order respects the wildcard-class rank. -/
theorem precLe_rank_mono (p q : Precedence) :
    precLe p q = true → rank p ≤ rank q := by
  intro h
  simp only [precLe, decide_eq_true_eq] at h
  unfold rank
  split_ifs <;> omega

/-- C2: the compiled specificity score is the pair (`**` count, `*` count);
`precLt` compares these pairs lexicographically with the `**` count most
significant; `Router::new` produces a permutation of the configured routes
that is sorted ascending by this score; and in the sorted list the
wildcard-class rank (literal-only < single-wildcard < any-`**`) is
monotone, so literal-only routes precede single-wildcard routes, which
precede any route containing `**`. -/
theorem specificity_score_and_sort :
    (∀ (path : String) (r : Route),
       routeNew path = .ok r →
       r.precedence =
         ⟨(splitSegments path).count ['*', '*'], (splitSegments path).count ['*']⟩) ∧
    (∀ p q : Precedence,
       precLt p q = true ↔
         (p.multi_wildcards < q.multi_wildcards ∨
          (p.multi_wildcards = q.multi_wildcards ∧ p.wildcards < q.wildcards))) ∧
    (∀ routes : List ConfigRoute, (routerNew routes).Perm routes) ∧
    (∀ routes : List ConfigRoute,
       (routerNew routes).Pairwise
         (fun a b => precLe a.route.precedence b.route.precedence = true)) ∧
    (rank ⟨0, 0⟩ = 0 ∧ (∀ w, rank ⟨0, w + 1⟩ = 1) ∧ (∀ m w, rank ⟨m + 1, w⟩ = 2)) ∧
    (∀ (routes : List ConfigRoute) (i j : Fin (routerNew routes).length),
       i ≤ j →
       rank ((routerNew routes).get i).route.precedence ≤
         rank ((routerNew routes).get j).route.precedence) := by
  have hpair : ∀ routes : List ConfigRoute,
      (routerNew routes).Pairwise
        (fun a b => precLe a.route.precedence b.route.precedence = true) := by
    intro routes
    exact @List.sorted_mergeSort ConfigRoute
      (fun a b => precLe a.route.precedence b.route.precedence)
      (fun a b c hab hbc => precLe_trans _ _ _ hab hbc)
      (fun a b => precLe_total _ _) routes
  refine ⟨fun path r h => ?_, fun p q => by simp [precLt],
    fun routes => List.mergeSort_perm routes _, hpair,
    ⟨rfl, fun w => rfl, fun m w => rfl⟩, fun routes i j hij => ?_⟩
  · obtain ⟨rsegs, hc⟩ := compileLoop_counts (splitSegments path)
    rw [routeNew, hc] at h
    cases h
    rfl
  · rcases Nat.lt_or_ge i.1 j.1 with hlt | hge
    · exact precLe_rank_mono _ _ (List.pairwise_iff_get.mp (hpair routes) i j hlt)
    · have : i = j := Fin.le_antisymm hij hge
      subst this
      exact Nat.le_refl _

/-- Closed instance of the specificity theorem: the pattern `/a/**/b/*`
compiles to the score (1 multi-wildcard, 1 wildcard). -/
theorem specificity_score_witness :
    (Route.mk ⟨1, 1⟩ [.lit ['a'], .multi, .lit ['b'], .wild]).precedence = ⟨1, 1⟩ := by
  exact specificity_score_and_sort.1 "/a/**/b/*"
    (Route.mk ⟨1, 1⟩ [.lit ['a'], .multi, .lit ['b'], .wild]) rfl

/-- Stability of the construction sort: restricted to any one specificity
score, `Router::new` keeps the routes exactly in their original
configuration order. -/
theorem routerNew_stable (routes : List ConfigRoute) (key : Precedence) :
    (routerNew routes).filter (fun r => r.route.precedence == key) =
      routes.filter (fun r => r.route.precedence == key) := by
  set p : ConfigRoute → Bool := fun r => r.route.precedence == key with hp
  have hperm : (routerNew routes).filter p |>.Perm (routes.filter p) :=
    (List.mergeSort_perm routes _).filter p
  have hpairwise : (routes.filter p).Pairwise
      (fun a b => precLe a.route.precedence b.route.precedence = true) := by
    apply List.pairwise_of_forall_mem_list
    intro a ha b hb
    have ha' := (List.mem_filter.mp ha).2
    have hb' := (List.mem_filter.mp hb).2
    have hak : a.route.precedence = key := by simpa [hp] using ha'
    have hbk : b.route.precedence = key := by simpa [hp] using hb'
    rw [hak, hbk]
    simp [precLe]
  have hsub : List.Sublist (routes.filter p) (routerNew routes) :=
    @List.sublist_mergeSort ConfigRoute
      (fun a b => precLe a.route.precedence b.route.precedence) routes
      (fun a b c hab hbc => precLe_trans _ _ _ hab hbc)
      (fun a b => precLe_total _ _) (routes.filter p) hpairwise
      (List.filter_sublist routes)
  have hsub2 : List.Sublist (routes.filter p) ((routerNew routes).filter p) := by
    have h1 := hsub.filter p
    rwa [List.filter_filter, show (fun a => p a && p a) = p from funext fun a => Bool.and_self _]
      at h1
  exact (hsub2.eq_of_length hperm.length_eq.symm).symm

/-- When every candidate declines, handing back the request it received,
the candidate loop returns the fallback produced by the last candidate. -/
theorem runCandidates_all_decline (handlers : List HandlerFn) :
    ∀ (cands : List Nat) (request : Request) (fallback : Response) (last : Nat),
      cands.getLast? = some last →
      (∀ i ∈ cands, ∀ r, ∃ fb, handlerAt handlers i r = .error (r, fb)) →
      runCandidates handlers cands request fallback =
        declineFallback (handlerAt handlers last) request := by
  intro cands
  induction cands with
  | nil => intro request fallback last hlast _; cases hlast
  | cons i rest ih =>
    intro request fallback last hlast hdecl
    obtain ⟨fb, hfb⟩ := hdecl i (List.mem_cons_self i rest) request
    cases rest with
    | nil =>
      have : last = i := by
        simpa using hlast.symm
      subst this
      simp [runCandidates, hfb, declineFallback]
    | cons j rest' =>
      have hlast' : (j :: rest').getLast? = some last := by
        simpa [List.getLast?_cons_cons] using hlast
      have hstep : runCandidates handlers (i :: j :: rest') request fallback =
          runCandidates handlers (j :: rest') request fb := by
        simp [runCandidates, hfb]
      rw [hstep]
      exact ih request fb last hlast'
        (fun k hk r => hdecl k (List.mem_cons_of_mem i hk) r)

/-- C1: the Router answers 404 when no pattern matches; otherwise it runs
the matching handlers (the candidate index list is strictly ascending, and
indexes into the specificity-sorted, stably-tied route list) threading the
declined request and the latest fallback: the first accepting handler's
response is returned, and when every candidate declines the fallback of the
last candidate tried is returned. -/
theorem router_dispatch :
    (∀ (router : MRouter) (request : Request),
       regexSetMatches router.patterns request.path = [] →
       tryHandle router request = fromStatus 404) ∧
    (∀ (router : MRouter) (request : Request) (ms : List Nat),
       regexSetMatches router.patterns request.path = ms → ms ≠ [] →
       tryHandle router request = runCandidates router.handlers ms request (fromStatus 404)) ∧
    (∀ (handlers : List HandlerFn) (i : Nat) (rest : List Nat)
       (request : Request) (fallback response : Response),
       handlerAt handlers i request = .ok response →
       runCandidates handlers (i :: rest) request fallback = response) ∧
    (∀ (handlers : List HandlerFn) (i : Nat) (rest : List Nat)
       (request request' : Request) (fallback fallback' : Response),
       handlerAt handlers i request = .error (request', fallback') →
       runCandidates handlers (i :: rest) request fallback =
         runCandidates handlers rest request' fallback') ∧
    (∀ (handlers : List HandlerFn) (cands : List Nat) (request : Request)
       (fallback : Response) (last : Nat),
       cands.getLast? = some last →
       (∀ i ∈ cands, ∀ r, ∃ fb, handlerAt handlers i r = .error (r, fb)) →
       runCandidates handlers cands request fallback =
         declineFallback (handlerAt handlers last) request) ∧
    (∀ (patterns : List Route) (path : String),
       (regexSetMatches patterns path).Pairwise (· < ·)) ∧
    (∀ routes : List ConfigRoute,
       (routerOf routes).patterns.Pairwise
         (fun a b => precLe a.precedence b.precedence = true)) ∧
    (∀ (routes : List ConfigRoute) (key : Precedence),
       (routerNew routes).filter (fun r => r.route.precedence == key) =
         routes.filter (fun r => r.route.precedence == key)) := by
  refine ⟨fun router request h => by simp [tryHandle, h],
    fun router request ms hms hne => ?_,
    fun handlers i rest request fallback response h => by simp [runCandidates, h],
    fun handlers i rest request request' fallback fallback' h => by
      simp [runCandidates, h],
    runCandidates_all_decline,
    fun patterns path =>
      List.Pairwise.filter _ (List.pairwise_lt_range _),
    fun routes => ?_,
    routerNew_stable⟩
  · unfold tryHandle
    rw [hms, if_neg (by simpa [List.isEmpty_iff] using hne)]
  · have hp := (specificity_score_and_sort.2.2.2.1 routes)
    unfold routerOf
    exact (List.pairwise_map).mpr hp

/-- Closed instance of the dispatch theorem: with routes `/a` (which
declines every request with a 405 fallback) and `/**` (which accepts with a
200), a request for `/a` matches both, falls through the declining `/a`
route and is answered by the `/**` handler; with both routes declining, the
fallback of the last candidate is returned. -/
theorem router_dispatch_witness :
    runCandidates
        [fun r => .error (r, fromStatus 405), fun _ => .ok (fromStatus 200)]
        [0, 1] ⟨"GET", "/a"⟩ (fromStatus 404)
      = fromStatus 200 ∧
    runCandidates
        [fun r => .error (r, fromStatus 405), fun r => .error (r, fromStatus 403)]
        [0, 1] ⟨"GET", "/a"⟩ (fromStatus 404)
      = fromStatus 403 ∧
    tryHandle ⟨[], []⟩ ⟨"GET", "/nowhere"⟩ = fromStatus 404 := by
  refine ⟨?_, ?_, ?_⟩
  · have h1 := router_dispatch.2.2.2.1
      [fun r => .error (r, fromStatus 405), fun _ => .ok (fromStatus 200)]
      0 [1] ⟨"GET", "/a"⟩ ⟨"GET", "/a"⟩ (fromStatus 404) (fromStatus 405) rfl
    have h2 := router_dispatch.2.2.1
      [fun r => .error (r, fromStatus 405), fun _ => .ok (fromStatus 200)]
      1 [] ⟨"GET", "/a"⟩ (fromStatus 405) (fromStatus 200) rfl
    rw [h1, h2]
  · exact router_dispatch.2.2.2.2.1
      [fun r => .error (r, fromStatus 405), fun r => .error (r, fromStatus 403)]
      [0, 1] ⟨"GET", "/a"⟩ (fromStatus 404) 1 rfl
      (fun i hi r => by
        rcases (by simpa using hi : i = 0 ∨ i = 1) with rfl | rfl
        · exact ⟨fromStatus 405, rfl⟩
        · exact ⟨fromStatus 403, rfl⟩)
  · exact router_dispatch.1 ⟨[], []⟩ ⟨"GET", "/nowhere"⟩ rfl

end MockServer
